import Mathlib

/-!
Verification model of `src/YewChat/src/components/chat.rs` (the chat
component of the YewChat tutorial repository).

The component exchanges JSON text frames over a websocket.  The JSON
text layer (`serde_json`) is modelled by an executable renderer and a
fuel-bounded recursive-descent reader over `List Char`; the derived
serde data binding for the repository's types (`WebSocketMessage`,
`MessageData`) is modelled field by field, including `rename_all`
attributes, optional-field defaulting, unknown-field tolerance and
duplicate-field rejection.  Panics (`unwrap`) are modelled as
`Except.error ()`.
-/

namespace YewChat

/-- JSON values, the common currency of the serde_json text layer. -/
inductive Json where
  | null : Json
  | bool (b : Bool) : Json
  | num (n : Int) : Json
  | str (s : String) : Json
  | arr (elems : List Json) : Json
  | obj (fields : List (String × Json)) : Json

/-- Lower-case hex digit for a value below 16 (as serde_json emits in
control-character escapes). -/
def hexDigit (n : Nat) : Char :=
  if n < 10 then Char.ofNat (48 + n) else Char.ofNat (87 + n)

/-- Value of one hex digit, if the character is one. -/
def hexVal (c : Char) : Option Nat :=
  if 48 ≤ c.toNat ∧ c.toNat ≤ 57 then some (c.toNat - 48)
  else if 97 ≤ c.toNat ∧ c.toNat ≤ 102 then some (c.toNat - 87)
  else if 65 ≤ c.toNat ∧ c.toNat ≤ 70 then some (c.toNat - 55)
  else none

/-- How serde_json escapes one character inside a JSON string literal:
quote and backslash get short escapes, as do the five short-escape
control characters; the remaining control characters become `\u00XX`;
everything else is emitted verbatim. -/
def escapeChar (c : Char) : List Char :=
  if c = '"' then ['\\', '"']
  else if c = '\\' then ['\\', '\\']
  else if c = '\n' then ['\\', 'n']
  else if c = '\r' then ['\\', 'r']
  else if c = '\t' then ['\\', 't']
  else if c = '\x08' then ['\\', 'b']
  else if c = '\x0c' then ['\\', 'f']
  else if c.toNat < 32 then ['\\', 'u', '0', '0', hexDigit (c.toNat / 16), hexDigit (c.toNat % 16)]
  else [c]

/-- Escape a whole character sequence. -/
def escapeList : List Char → List Char
  | [] => []
  | c :: cs => escapeChar c ++ escapeList cs

/-- Rendered JSON string literal (opening quote, escaped body, closing
quote), as serde_json writes a `String` value. -/
def renderStrLit (s : String) : List Char :=
  '"' :: (escapeList s.data ++ ['"'])

/-- JSON whitespace. -/
def isWsChar (c : Char) : Bool :=
  c = ' ' || c = '\n' || c = '\t' || c = '\r'

/-- Drop leading JSON whitespace. -/
def skipWs : List Char → List Char
  | [] => []
  | c :: cs => if isWsChar c then skipWs cs else c :: cs

/-- Consume an expected literal character sequence. -/
def expectLit : List Char → List Char → Option (List Char)
  | [], cs => some cs
  | p :: ps, c :: cs => if c = p then expectLit ps cs else none
  | _ :: _, [] => none

/-- Read the body of a JSON string literal (after the opening quote),
returning the unescaped characters and the remainder after the closing
quote.  Raw control characters are rejected, escape sequences are
decoded, and `\uXXXX` is accepted only for valid (non-surrogate) scalar
values — a faithful-or-stricter model of serde_json's reader. -/
def parseStringChars : List Char → Option (List Char × List Char)
  | [] => none
  | c :: cs =>
    if c = '"' then some ([], cs)
    else if c = '\\' then
      match cs with
      | [] => none
      | e :: cs2 =>
        if e = '"' then (fun p => ('"' :: p.1, p.2)) <$> parseStringChars cs2
        else if e = '\\' then (fun p => ('\\' :: p.1, p.2)) <$> parseStringChars cs2
        else if e = '/' then (fun p => ('/' :: p.1, p.2)) <$> parseStringChars cs2
        else if e = 'n' then (fun p => ('\n' :: p.1, p.2)) <$> parseStringChars cs2
        else if e = 'r' then (fun p => ('\r' :: p.1, p.2)) <$> parseStringChars cs2
        else if e = 't' then (fun p => ('\t' :: p.1, p.2)) <$> parseStringChars cs2
        else if e = 'b' then (fun p => ('\x08' :: p.1, p.2)) <$> parseStringChars cs2
        else if e = 'f' then (fun p => ('\x0c' :: p.1, p.2)) <$> parseStringChars cs2
        else if e = 'u' then
          match cs2 with
          | c1 :: c2 :: c3 :: c4 :: cs3 =>
            match hexVal c1, hexVal c2, hexVal c3, hexVal c4 with
            | some a, some b, some m, some d =>
              let n := a * 4096 + b * 256 + m * 16 + d
              if n.isValidChar then
                (fun p => (Char.ofNat n :: p.1, p.2)) <$> parseStringChars cs3
              else none
            | _, _, _, _ => none
          | _ => none
        else none
    else if c.toNat < 32 then none
    else (fun p => (c :: p.1, p.2)) <$> parseStringChars cs

/-- Greedily split off leading decimal digits. -/
def takeDigits : List Char → (List Char × List Char)
  | [] => ([], [])
  | c :: cs =>
    if c.isDigit then
      let p := takeDigits cs
      (c :: p.1, p.2)
    else ([], c :: cs)

/-- Numeric value of a digit sequence. -/
def digitsToNat : List Char → Nat
  | [] => 0
  | c :: cs => digitsToNat cs + (c.toNat - 48) * 10 ^ cs.length

/-- Read an unsigned JSON integer (no leading zero unless the number is
zero itself). -/
def parseNatNum : List Char → Option (Nat × List Char)
  | cs =>
    match takeDigits cs with
    | ([], _) => none
    | (d :: ds, rest) =>
      if d = '0' ∧ ds ≠ [] then none
      else some (digitsToNat (d :: ds), rest)

mutual

/-- Fuel-bounded JSON reader: one value, plus the unconsumed remainder.
Models the fragment of serde_json's grammar this protocol can produce
(integers only among numbers); on anything outside the fragment it
fails, which models a decode error. -/
def parseVal : Nat → List Char → Option (Json × List Char)
  | 0, _ => none
  | f + 1, cs =>
    match skipWs cs with
    | [] => none
    | c :: rest =>
      if c = 'n' then (expectLit ['u', 'l', 'l'] rest).map (fun r => (Json.null, r))
      else if c = 't' then (expectLit ['r', 'u', 'e'] rest).map (fun r => (Json.bool true, r))
      else if c = 'f' then (expectLit ['a', 'l', 's', 'e'] rest).map (fun r => (Json.bool false, r))
      else if c = '"' then
        (parseStringChars rest).map (fun p => (Json.str ⟨p.1⟩, p.2))
      else if c = '[' then
        match skipWs rest with
        | ']' :: rest2 => some (Json.arr [], rest2)
        | rest2 => (parseArrElems f rest2).map (fun p => (Json.arr p.1, p.2))
      else if c = '\x7b' then
        match skipWs rest with
        | '\x7d' :: rest2 => some (Json.obj [], rest2)
        | rest2 => (parseObjFields f rest2).map (fun p => (Json.obj p.1, p.2))
      else if c = '-' then
        (parseNatNum rest).bind (fun p => some (Json.num (-(p.1 : Int)), p.2))
      else if c.isDigit then
        (parseNatNum (c :: rest)).bind (fun p => some (Json.num (p.1 : Int), p.2))
      else none

/-- Fuel-bounded list of array elements (at least one), ending at `]`. -/
def parseArrElems : Nat → List Char → Option (List Json × List Char)
  | 0, _ => none
  | f + 1, cs =>
    match parseVal f cs with
    | none => none
    | some (v, rest) =>
      match skipWs rest with
      | ',' :: rest2 =>
        match parseArrElems f rest2 with
        | some (vs, rest3) => some (v :: vs, rest3)
        | none => none
      | ']' :: rest2 => some ([v], rest2)
      | _ => none

/-- Fuel-bounded list of object members (at least one), ending at `}`. -/
def parseObjFields : Nat → List Char → Option (List (String × Json) × List Char)
  | 0, _ => none
  | f + 1, cs =>
    match skipWs cs with
    | '"' :: rest =>
      match parseStringChars rest with
      | none => none
      | some (k, rest2) =>
        match skipWs rest2 with
        | ':' :: rest3 =>
          match parseVal f rest3 with
          | none => none
          | some (v, rest4) =>
            match skipWs rest4 with
            | ',' :: rest5 =>
              match parseObjFields f rest5 with
              | some (fs2, rest6) => some ((⟨k⟩, v) :: fs2, rest6)
              | none => none
            | '\x7d' :: rest5 => some ([(⟨k⟩, v)], rest5)
            | _ => none
        | _ => none
    | _ => none

end

/-- Parse a complete JSON document from text: one value followed by
nothing but whitespace.  The fuel `2 * length + 2` over-approximates the
reader's recursion depth on any input it accepts. -/
def parseJsonStr (s : String) : Option Json :=
  match parseVal (2 * s.data.length + 2) s.data with
  | some (v, rest) => if skipWs rest = [] then some v else none
  | none => none

/-! ## The repository's wire types (`chat.rs` lines 14–34) -/

/-- `enum MsgTypes` with `#[serde(rename_all = "lowercase")]`. -/
inductive MsgTypes where
  | Users : MsgTypes
  | Register : MsgTypes
  | Message : MsgTypes
deriving DecidableEq, Repr

/-- `struct WebSocketMessage` with `#[serde(rename_all = "camelCase")]`:
fields `message_type`, `data_array`, `data` appear on the wire as
`messageType`, `dataArray`, `data`. -/
structure WebSocketMessage where
  message_type : MsgTypes
  data_array : Option (List String)
  data : Option String
deriving DecidableEq, Repr

/-- `struct MessageData` (derive `Deserialize` only): the nested payload
of a `Message` envelope. -/
structure MessageData where
  «from» : String
  message : String
deriving DecidableEq, Repr

/-! ## Serde data binding, Json value → typed value -/

/-- Deserializing `MsgTypes` from its lowercase wire tag. -/
def decodeMsgTypes : Json → Option MsgTypes
  | Json.str s =>
    if s = "users" then some MsgTypes.Users
    else if s = "register" then some MsgTypes.Register
    else if s = "message" then some MsgTypes.Message
    else none
  | _ => none

/-- Deserializing `Vec<String>`: every element must be a JSON string. -/
def decodeStrList : List Json → Option (List String)
  | [] => some []
  | Json.str s :: rest => (decodeStrList rest).map (fun l => s :: l)
  | _ :: _ => none

/-- Deserializing `Option<Vec<String>>`: `null` is `None`, an array of
strings is `Some`, anything else is an error. -/
def decodeOptStrList : Json → Option (Option (List String))
  | Json.null => some none
  | Json.arr xs => (decodeStrList xs).map some
  | _ => none

/-- Deserializing `Option<String>`. -/
def decodeOptStr : Json → Option (Option String)
  | Json.null => some none
  | Json.str s => some (some s)
  | _ => none

/-- The derived `Deserialize` visitor for `WebSocketMessage`, folded
over the object members: known fields fill their slot (a duplicate is an
error), unknown fields are ignored, `messageType` is required, and a
missing `Option` field defaults to `None`. -/
def decodeWSFields :
    List (String × Json) → Option MsgTypes → Option (Option (List String)) →
    Option (Option String) → Option WebSocketMessage
  | [], mt?, da?, d? =>
    match mt? with
    | none => none
    | some mt => some ⟨mt, da?.getD none, d?.getD none⟩
  | (k, v) :: rest, mt?, da?, d? =>
    if k = "messageType" then
      match mt? with
      | some _ => none
      | none => (decodeMsgTypes v).bind (fun mt => decodeWSFields rest (some mt) da? d?)
    else if k = "dataArray" then
      match da? with
      | some _ => none
      | none => (decodeOptStrList v).bind (fun da => decodeWSFields rest mt? (some da) d?)
    else if k = "data" then
      match d? with
      | some _ => none
      | none => (decodeOptStr v).bind (fun d => decodeWSFields rest mt? da? (some d))
    else decodeWSFields rest mt? da? d?

/-- `WebSocketMessage` from a JSON value: must be an object. -/
def decodeWSJson : Json → Option WebSocketMessage
  | Json.obj fields => decodeWSFields fields none none none
  | _ => none

/-- The derived `Deserialize` visitor for `MessageData`: `from` and
`message` are both required strings. -/
def decodeMDFields :
    List (String × Json) → Option String → Option String → Option MessageData
  | [], f?, m? =>
    match f?, m? with
    | some f, some m => some ⟨f, m⟩
    | _, _ => none
  | (k, v) :: rest, f?, m? =>
    if k = "from" then
      match f? with
      | some _ => none
      | none =>
        match v with
        | Json.str s => decodeMDFields rest (some s) m?
        | _ => none
    else if k = "message" then
      match m? with
      | some _ => none
      | none =>
        match v with
        | Json.str s => decodeMDFields rest f? (some s)
        | _ => none
    else decodeMDFields rest f? m?

/-- `MessageData` from a JSON value. -/
def decodeMDJson : Json → Option MessageData
  | Json.obj fields => decodeMDFields fields none none
  | _ => none

/-- Models `serde_json::from_str::<WebSocketMessage>`. -/
def decodeWS (s : String) : Option WebSocketMessage :=
  (parseJsonStr s).bind decodeWSJson

/-- Models `serde_json::from_str::<MessageData>`. -/
def decodeMD (s : String) : Option MessageData :=
  (parseJsonStr s).bind decodeMDJson

/-! ## Serde serialization of `WebSocketMessage` -/

/-- The lowercase wire tag of each `MsgTypes` variant. -/
def msgTypeTag : MsgTypes → String
  | MsgTypes.Users => "users"
  | MsgTypes.Register => "register"
  | MsgTypes.Message => "message"

/-- Rendered elements of a non-empty JSON string array, comma
separated. -/
def renderArrElems : List String → List Char
  | [] => []
  | [x] => renderStrLit x
  | x :: xs => renderStrLit x ++ (',' :: renderArrElems xs)

/-- `Option<Vec<String>>` on the wire: `None` is `null`. -/
def renderOptArr : Option (List String) → List Char
  | none => ['n', 'u', 'l', 'l']
  | some [] => ['[', ']']
  | some (x :: xs) => '[' :: (renderArrElems (x :: xs) ++ [']'])

/-- `Option<String>` on the wire: `None` is `null`. -/
def renderOptStr : Option String → List Char
  | none => ['n', 'u', 'l', 'l']
  | some s => renderStrLit s

/-- Models `serde_json::to_string(&message)`: the derived `Serialize`
writes the three fields in declaration order under their camelCase wire
names, compactly. -/
def encodeWSChars (m : WebSocketMessage) : List Char :=
  '\x7b' :: (renderStrLit "messageType" ++ (':' ::
    (renderStrLit (msgTypeTag m.message_type) ++ (',' ::
      (renderStrLit "dataArray" ++ (':' ::
        (renderOptArr m.data_array ++ (',' ::
          (renderStrLit "data" ++ (':' ::
            (renderOptStr m.data ++ ['\x7d'])))))))))))

/-- The encoded wire text of a `WebSocketMessage`. -/
def encodeWS (m : WebSocketMessage) : String :=
  ⟨encodeWSChars m⟩

/-! ## Session state and reducer (`chat.rs` lines 36–47, 84–137) -/

/-- `struct UserProfile` (the `avatar` field holds the derived URL). -/
structure UserProfile where
  name : String
  avatar : String
deriving DecidableEq, Repr

/-- The mutable state of `struct Chat` that the reducer touches:
`users` (the roster) and `messages` (the log). -/
structure ChatState where
  users : List UserProfile
  messages : List MessageData
deriving DecidableEq, Repr

/-- `Chat::create` starts with `users: vec![], messages: vec![]`. -/
def initialState : ChatState := ⟨[], []⟩

/-- The avatar URL built in the `Users` arm:
`format!("https://avatars.dicebear.com/api/adventurer-neutral/{}.svg", u)`. -/
def avatarUrl (u : String) : String :=
  "https://avatars.dicebear.com/api/adventurer-neutral/" ++ u ++ ".svg"

/-- The `UserProfile` built for one roster name. -/
def profileOf (u : String) : UserProfile :=
  ⟨u, avatarUrl u⟩

/-- The `Msg::HandleMsg(s)` arm of `Chat::update`.  `Except.error ()`
models a panic of one of its `unwrap()` calls (which aborts the
component); `Except.ok (st, b)` is the new state and the returned
re-render flag. -/
def handleMsg (st : ChatState) (s : String) : Except Unit (ChatState × Bool) :=
  match decodeWS s with
  | none => Except.error ()
  | some msg =>
    match msg.message_type with
    | MsgTypes.Users =>
      let users_from_message := msg.data_array.getD []
      Except.ok ({ st with users := users_from_message.map profileOf }, true)
    | MsgTypes.Message =>
      match msg.data with
      | none => Except.error ()
      | some d =>
        match decodeMD d with
        | none => Except.error ()
        | some message_data =>
          Except.ok ({ st with messages := st.messages ++ [message_data] }, true)
    | MsgTypes.Register => Except.ok (st, false)

/-! ## Outbound action encoder (`chat.rs` lines 61–73, 115–134) -/

/-- The envelope built in `Chat::create` before registering. -/
def buildRegister (username : String) : WebSocketMessage :=
  ⟨MsgTypes.Register, none, some username⟩

/-- The envelope built in the `Msg::SubmitMessage` arm. -/
def buildMessage (text : String) : WebSocketMessage :=
  ⟨MsgTypes.Message, none, some text⟩

/-- Observable outcome of the `Msg::SubmitMessage` arm. -/
structure SubmitOutcome where
  state : ChatState
  rerender : Bool
  sent : Option String
  inputAfter : Option String
  loggedSendError : Bool
deriving DecidableEq, Repr

/-- The `Msg::SubmitMessage` arm of `Chat::update`: if the input element
exists, encode its value as a `Message` envelope, hand the text to
`try_send` (whose failure is only logged), then clear the input; the
arm always returns `false` and never touches `users` or `messages`. -/
def submitMessage (st : ChatState) (inputValue : Option String) (sendOk : Bool) :
    SubmitOutcome :=
  match inputValue with
  | none => ⟨st, false, none, none, false⟩
  | some v => ⟨st, false, some (encodeWS (buildMessage v)), some "", !sendOk⟩

/-! ## Render-time sender lookup (`chat.rs` lines 166–171) -/

/-- `self.users.iter().find(|u| u.name == m.from)` in `Chat::view`. -/
def findSender (users : List UserProfile) (sender : String) : Option UserProfile :=
  users.find? (fun u => u.name == sender)

/-- The data one rendered message row depends on: the sender's avatar
URL and whether the text is shown as an inline image (`.gif` suffix).
`none` models the `unwrap()` panic when the sender is not in the
roster. -/
def renderMessageRow (users : List UserProfile) (m : MessageData) :
    Option (String × Bool) :=
  match findSender users m.«from» with
  | none => none
  | some u => some (u.avatar, m.message.endsWith ".gif")

/-! ## Frame sequences -/

/-- Reduce a sequence of inbound raw frames in delivery order; a panic
aborts the run. -/
def processFrames (st : ChatState) : List String → Except Unit ChatState
  | [] => Except.ok st
  | s :: rest =>
    match handleMsg st s with
    | Except.error e => Except.error e
    | Except.ok (st', _) => processFrames st' rest

/-- The chat payload a raw frame contributes to the log, if any. -/
def framePayload (s : String) : Option MessageData :=
  match decodeWS s with
  | none => none
  | some msg =>
    match msg.message_type, msg.data with
    | MsgTypes.Message, some d => decodeMD d
    | _, _ => none

/-- The log entries contributed by a frame sequence, in delivery
order. -/
def msgPayloads (frames : List String) : List MessageData :=
  frames.filterMap framePayload

/-- A raw frame that the reducer survives without panicking and without
touching the log except through a valid `Message` payload: either a
well-formed `Users` envelope or a `Message` envelope whose `data`
decodes as a `MessageData`. -/
def goodFrame (s : String) : Bool :=
  match decodeWS s with
  | none => false
  | some msg =>
    match msg.message_type with
    | MsgTypes.Users => true
    | MsgTypes.Register => false
    | MsgTypes.Message =>
      match msg.data with
      | none => false
      | some d => (decodeMD d).isSome

/-! ## Auxiliary values for the codec proofs -/

/-- The JSON value of an `Option<Vec<String>>` field. -/
def optArrJson : Option (List String) → Json
  | none => Json.null
  | some xs => Json.arr (xs.map Json.str)

/-- The JSON value of an `Option<String>` field. -/
def optStrJson : Option String → Json
  | none => Json.null
  | some s => Json.str s

/-- Number of roster entries carried by a `data_array` field. -/
def daLen : Option (List String) → Nat
  | none => 0
  | some xs => xs.length

/-- The JSON value a serialized `WebSocketMessage` denotes. -/
def wsJson (m : WebSocketMessage) : Json :=
  Json.obj [("messageType", Json.str (msgTypeTag m.message_type)),
            ("dataArray", optArrJson m.data_array),
            ("data", optStrJson m.data)]

/-! ## Concrete wire frames used as test vectors -/

/-- A well-formed `Users` envelope naming alice and bob. -/
def usersFrame : String :=
  "\x7b\"messageType\":\"users\",\"dataArray\":[\"alice\",\"bob\"],\"data\":null\x7d"

/-- The serialized `MessageData` payload `from: alice, message: hi`. -/
def innerPayload : String :=
  "\x7b\"from\":\"alice\",\"message\":\"hi\"\x7d"

/-- A well-formed `Message` envelope whose `data` carries
`innerPayload` as an escaped JSON string. -/
def messageFrame : String :=
  "\x7b\"messageType\":\"message\",\"dataArray\":null,\"data\":\"\x7b\\\"from\\\":\\\"alice\\\",\\\"message\\\":\\\"hi\\\"\x7d\"\x7d"

/-- A well-formed inbound `Register` envelope. -/
def registerFrame : String :=
  "\x7b\"messageType\":\"register\",\"dataArray\":null,\"data\":\"bob\"\x7d"

/-- A `Message` envelope with no `data` field at all. -/
def dataAbsentFrame : String :=
  "\x7b\"messageType\":\"message\"\x7d"

/-! ## Codec lemmas -/

theorem hexVal_hexDigit (n : Nat) (h : n < 16) : hexVal (hexDigit n) = some n := by
  interval_cases n <;> decide

theorem parseStringChars_escape (l rest : List Char) :
    parseStringChars (escapeList l ++ '"' :: rest) = some (l, rest) := by
  induction l with
  | nil => rw [escapeList, List.nil_append, parseStringChars.eq_def]; simp
  | cons c cs ih =>
    rw [escapeList, escapeChar]
    by_cases h1 : c = '"'
    · subst h1; simp only [if_pos rfl, List.cons_append, List.nil_append]
      rw [parseStringChars.eq_def]; simp [ih]
    · rw [if_neg h1]
      by_cases h2 : c = '\\'
      · subst h2; simp only [if_pos rfl, List.cons_append, List.nil_append]
        rw [parseStringChars.eq_def]; simp [ih]
      · rw [if_neg h2]
        by_cases h3 : c = '\n'
        · subst h3; simp only [if_pos rfl, List.cons_append, List.nil_append]
          rw [parseStringChars.eq_def]; simp [ih]
        · rw [if_neg h3]
          by_cases h4 : c = '\r'
          · subst h4; simp only [if_pos rfl, List.cons_append, List.nil_append]
            rw [parseStringChars.eq_def]; simp [ih]
          · rw [if_neg h4]
            by_cases h5 : c = '\t'
            · subst h5; simp only [if_pos rfl, List.cons_append, List.nil_append]
              rw [parseStringChars.eq_def]; simp [ih]
            · rw [if_neg h5]
              by_cases h6 : c = '\x08'
              · subst h6; simp only [if_pos rfl, List.cons_append, List.nil_append]
                rw [parseStringChars.eq_def]; simp [ih]
              · rw [if_neg h6]
                by_cases h7 : c = '\x0c'
                · subst h7; simp only [if_pos rfl, List.cons_append, List.nil_append]
                  rw [parseStringChars.eq_def]; simp [ih]
                · rw [if_neg h7]
                  by_cases h8 : c.toNat < 32
                  · rw [if_pos h8]
                    simp only [List.cons_append, List.nil_append]
                    rw [parseStringChars.eq_def]
                    have hd : c.toNat / 16 < 16 := by omega
                    have hm : c.toNat % 16 < 16 := Nat.mod_lt _ (by omega)
                    simp only [hexVal_hexDigit _ hd, hexVal_hexDigit _ hm]
                    have hv0 : hexVal '0' = some 0 := by decide
                    simp only [hv0]
                    have hn : c.toNat / 16 * 16 + c.toNat % 16 = c.toNat := by
                      omega
                    have hvalid : (c.toNat).isValidChar := Or.inl (by omega)
                    simp [hn, hvalid, Char.ofNat_toNat, ih]
                  · rw [if_neg h8]
                    simp only [List.cons_append, List.nil_append]
                    rw [parseStringChars.eq_def]
                    simp [h1, h2, h8, ih]

theorem skipWs_cons (c : Char) (cs : List Char) (h : isWsChar c = false) :
    skipWs (c :: cs) = c :: cs := by
  rw [skipWs, h]; simp

theorem parseVal_strLit (f : Nat) (s : String) (rest : List Char) :
    parseVal (f + 1) (renderStrLit s ++ rest) = some (Json.str s, rest) := by
  rw [renderStrLit]
  simp only [List.cons_append, List.append_assoc, List.singleton_append]
  simp [parseVal, skipWs, isWsChar, parseStringChars_escape]

theorem parseVal_null (f : Nat) (rest : List Char) :
    parseVal (f + 1) ('n' :: 'u' :: 'l' :: 'l' :: rest) = some (Json.null, rest) := by
  simp [parseVal, skipWs, isWsChar, expectLit]

theorem parseArrElems_strings (tl : List String) (x : String) (f : Nat) (rest : List Char) :
    parseArrElems (tl.length + f + 2) (renderArrElems (x :: tl) ++ ']' :: rest) =
      some ((x :: tl).map Json.str, rest) := by
  induction tl generalizing x f with
  | nil =>
    simp only [List.length_nil, Nat.zero_add]
    rw [renderArrElems]
    rw [show f + 2 = (f + 1) + 1 from rfl]
    rw [parseArrElems]
    rw [parseVal_strLit]
    simp [skipWs, isWsChar]
  | cons y tl2 ih =>
    rw [show renderArrElems (x :: y :: tl2) = renderStrLit x ++ (',' :: renderArrElems (y :: tl2)) from rfl]
    simp only [List.length_cons]
    rw [show tl2.length + 1 + f + 2 = ((tl2.length + f + 1) + 1) + 1 by omega]
    rw [parseArrElems]
    simp only [List.append_assoc, List.cons_append]
    rw [parseVal_strLit]
    simp only [skipWs_cons ',' (renderArrElems (y :: tl2) ++ ']' :: rest) rfl,
      show tl2.length + f + 1 + 1 = tl2.length + f + 2 from by omega, ih y f]
    simp

theorem parseVal_optArr (da : Option (List String)) (f : Nat) (rest : List Char) :
    parseVal (daLen da + f + 3) (renderOptArr da ++ rest) = some (optArrJson da, rest) := by
  match da with
  | none =>
    show parseVal (daLen none + f + 3) (['n', 'u', 'l', 'l'] ++ rest) = some (Json.null, rest)
    rw [show daLen none + f + 3 = (f + 2) + 1 from by simp [daLen]]
    exact parseVal_null (f + 2) rest
  | some [] =>
    show parseVal (daLen (some []) + f + 3) (['[', ']'] ++ rest) = some (Json.arr [], rest)
    rw [show daLen (some []) + f + 3 = (f + 2) + 1 from by simp [daLen]]
    simp [parseVal, skipWs, isWsChar]
  | some (x :: tl) =>
    obtain ⟨t, ht⟩ : ∃ t, renderArrElems (x :: tl) = '"' :: t := by
      match tl with
      | [] => exact ⟨escapeList x.data ++ ['"'], by simp [renderArrElems, renderStrLit]⟩
      | y :: tys =>
        exact ⟨escapeList x.data ++ ('"' :: (',' :: renderArrElems (y :: tys))),
          by simp [renderArrElems, renderStrLit]⟩
    show parseVal (daLen (some (x :: tl)) + f + 3)
        (('[' :: (renderArrElems (x :: tl) ++ [']'])) ++ rest) =
      some (Json.arr ((x :: tl).map Json.str), rest)
    rw [show daLen (some (x :: tl)) + f + 3 = (tl.length + (f + 1) + 2) + 1 from by
      simp [daLen]; omega]
    simp only [List.cons_append, List.append_assoc, List.singleton_append]
    rw [ht]
    simp only [List.cons_append]
    simp [parseVal, skipWs, isWsChar]
    rw [show ('"' :: (t ++ ']' :: rest)) = (('"' :: t) ++ ']' :: rest) from by simp]
    rw [← ht]
    rw [parseArrElems_strings tl x (f + 1) rest]
    simp

theorem parseVal_optStr (d : Option String) (f : Nat) (rest : List Char) :
    parseVal (f + 1) (renderOptStr d ++ rest) = some (optStrJson d, rest) := by
  match d with
  | none => exact parseVal_null f rest
  | some s => exact parseVal_strLit f s rest

theorem parseObjFields_last (g : Nat) (k : String) (vtxt rest : List Char) (v : Json)
    (hv : parseVal g (vtxt ++ '\x7d' :: rest) = some (v, '\x7d' :: rest)) :
    parseObjFields (g + 1) (renderStrLit k ++ (':' :: (vtxt ++ '\x7d' :: rest))) =
      some ([(k, v)], rest) := by
  rw [parseObjFields]
  simp [renderStrLit, List.cons_append, List.append_assoc, List.singleton_append,
    List.nil_append, skipWs_cons, isWsChar, parseStringChars_escape, hv]

theorem parseObjFields_cons (g : Nat) (k : String) (vtxt more : List Char) (v : Json)
    (fs : List (String × Json)) (rest : List Char)
    (hv : parseVal g (vtxt ++ ',' :: more) = some (v, ',' :: more))
    (hrest : parseObjFields g more = some (fs, rest)) :
    parseObjFields (g + 1) (renderStrLit k ++ (':' :: (vtxt ++ ',' :: more))) =
      some ((k, v) :: fs, rest) := by
  rw [parseObjFields]
  simp [renderStrLit, List.cons_append, List.append_assoc, List.singleton_append,
    List.nil_append, skipWs_cons, isWsChar, parseStringChars_escape, hv, hrest]

theorem parseVal_objOpen (f : Nat) (k : String) (cs : List Char) :
    parseVal (f + 1) ('\x7b' :: (renderStrLit k ++ cs)) =
      (parseObjFields f (renderStrLit k ++ cs)).map (fun p => (Json.obj p.1, p.2)) := by
  simp only [renderStrLit, List.cons_append, List.append_assoc, List.singleton_append]
  simp [parseVal, skipWs, isWsChar]

theorem parseVal_encodeWS (m : WebSocketMessage) (f : Nat) :
    parseVal (daLen m.data_array + f + 8) (encodeWSChars m) = some (wsJson m, []) := by
  rcases m with ⟨mt, da, d⟩
  have h3 : parseObjFields (daLen da + f + 5)
      (renderStrLit "data" ++ (':' :: (renderOptStr d ++ ['\x7d']))) =
      some ([("data", optStrJson d)], []) := by
    rw [show daLen da + f + 5 = (daLen da + f + 4) + 1 from by omega]
    apply parseObjFields_last
    rw [show daLen da + f + 4 = (daLen da + f + 3) + 1 from by omega]
    exact parseVal_optStr d (daLen da + f + 3) ['\x7d']
  have h2 : parseObjFields (daLen da + f + 6)
      (renderStrLit "dataArray" ++ (':' :: (renderOptArr da ++ (',' ::
        (renderStrLit "data" ++ (':' :: (renderOptStr d ++ ['\x7d']))))))) =
      some ([("dataArray", optArrJson da), ("data", optStrJson d)], []) := by
    rw [show daLen da + f + 6 = (daLen da + f + 5) + 1 from by omega]
    apply parseObjFields_cons
    · rw [show daLen da + f + 5 = daLen da + (f + 2) + 3 from by omega]
      exact parseVal_optArr da (f + 2) _
    · exact h3
  have h1 : parseObjFields (daLen da + f + 7)
      (renderStrLit "messageType" ++ (':' :: (renderStrLit (msgTypeTag mt) ++ (',' :: (renderStrLit "dataArray" ++ (':' :: (renderOptArr da ++ (',' :: (renderStrLit "data" ++ (':' :: (renderOptStr d ++ ['\x7d']))))))))))) =
      some ([("messageType", Json.str (msgTypeTag mt)),
             ("dataArray", optArrJson da), ("data", optStrJson d)], []) := by
    rw [show daLen da + f + 7 = (daLen da + f + 6) + 1 from by omega]
    apply parseObjFields_cons
    · rw [show daLen da + f + 6 = (daLen da + f + 5) + 1 from by omega]
      exact parseVal_strLit (daLen da + f + 5) (msgTypeTag mt) _
    · exact h2
  rw [encodeWSChars]
  rw [show daLen da + f + 8 = (daLen da + f + 7) + 1 from by omega]
  rw [parseVal_objOpen (daLen da + f + 7) "messageType" _]
  rw [h1]
  rfl

theorem two_le_renderStrLit (s : String) : 2 ≤ (renderStrLit s).length := by
  simp [renderStrLit]

theorem len_renderArrElems (tl : List String) (x : String) :
    (x :: tl).length ≤ (renderArrElems (x :: tl)).length := by
  induction tl generalizing x with
  | nil =>
    have := two_le_renderStrLit x
    simp [renderArrElems]; omega
  | cons y tys ih =>
    rw [show renderArrElems (x :: y :: tys) = renderStrLit x ++ (',' :: renderArrElems (y :: tys)) from rfl]
    have h1 := two_le_renderStrLit x
    have h2 := ih y
    simp only [List.length_cons, List.length_append] at *
    omega

theorem daLen_le_renderOptArr (da : Option (List String)) :
    daLen da ≤ (renderOptArr da).length := by
  match da with
  | none => simp [daLen, renderOptArr]
  | some [] => simp [daLen, renderOptArr]
  | some (x :: tl) =>
    have := len_renderArrElems tl x
    simp only [daLen, renderOptArr, List.length_cons, List.length_append] at *
    omega

theorem encode_len_lb (m : WebSocketMessage) :
    daLen m.data_array + 6 ≤ (encodeWSChars m).length := by
  rcases m with ⟨mt, da, d⟩
  have h1 := two_le_renderStrLit "messageType"
  have h5 := daLen_le_renderOptArr da
  simp only [encodeWSChars, List.length_cons, List.length_append]
  omega

theorem decodeStrList_map (xs : List String) : decodeStrList (xs.map Json.str) = some xs := by
  induction xs with
  | nil => rfl
  | cons x tl ih => simp [decodeStrList, ih]

theorem decodeWSJson_wsJson (m : WebSocketMessage) : decodeWSJson (wsJson m) = some m := by
  rcases m with ⟨mt, da, d⟩
  cases mt <;> rcases da with _ | xs <;> rcases d with _ | s <;>
    simp [wsJson, decodeWSJson, decodeWSFields, decodeMsgTypes, decodeOptStrList,
      decodeOptStr, decodeStrList_map, msgTypeTag, optArrJson, optStrJson]

/-! ## Claims -/

/-- C1: at an inbound raw text that is not a well-formed envelope
(here the frame `"oops"`) the `Msg::HandleMsg` arm panics on
`serde_json::from_str(&s).unwrap()` — modelled `Except.error ()` — so
the session terminates instead of keeping the state, signalling
`false`, and surfacing the error as the claim demands. -/
theorem claim_C1_malformed_frame_panics (st : ChatState) :
    handleMsg st "oops" = Except.error () := rfl

/-- C2: at a `Message` envelope whose `data` field is absent the
reducer panics on `msg.data.unwrap()` — modelled `Except.error ()` —
instead of signalling the error to the caller as the claim demands. -/
theorem claim_C2_message_without_data_panics (st : ChatState) :
    handleMsg st dataAbsentFrame = Except.error () := rfl

/-- C3: for any logged message whose `from` name is absent from the
roster (here: any message against an empty roster), the render-time
lookup in `Chat::view` is `find(..).unwrap()` on `none` — a panic
(modelled by `renderMessageRow` returning `none`) — not the placeholder
profile the claim demands. -/
theorem claim_C3_unknown_sender_render_panics (m : MessageData) :
    renderMessageRow [] m = none := rfl

/-- C4: for every prior state, reducing a frame that decodes as a
`Users` envelope replaces the roster by one profile per name of
`dataArray` in order — each avatar URL being the pinned dicebear
template with the name substituted verbatim — signals re-render, and
treats an absent `dataArray` as the empty roster. -/
theorem claim_C4_users_envelope_replaces_roster (st : ChatState) (s : String)
    (msg : WebSocketMessage) (hdec : decodeWS s = some msg)
    (hty : msg.message_type = MsgTypes.Users) :
    handleMsg st s =
      Except.ok
        ({ st with
            users := (msg.data_array.getD []).map (fun n =>
              ⟨n, "https://avatars.dicebear.com/api/adventurer-neutral/" ++ n ++ ".svg"⟩) },
          true) := by
  rcases msg with ⟨mt, da, d⟩
  have hty' : mt = MsgTypes.Users := hty
  subst hty'
  simp [handleMsg, hdec, profileOf, avatarUrl]

/-- C4 witness: the concrete `Users` frame for alice and bob. -/
theorem claim_C4_users_envelope_replaces_roster_witness :
    decodeWS usersFrame = some ⟨MsgTypes.Users, some ["alice", "bob"], none⟩ ∧
    handleMsg initialState usersFrame =
      Except.ok
        ({ initialState with
            users := ((some ["alice", "bob"] : Option (List String)).getD []).map (fun n =>
              ⟨n, "https://avatars.dicebear.com/api/adventurer-neutral/" ++ n ++ ".svg"⟩) },
          true) :=
  ⟨by decide,
   claim_C4_users_envelope_replaces_roster initialState usersFrame
     ⟨MsgTypes.Users, some ["alice", "bob"], none⟩ (by decide) rfl⟩

/-- C5: reducing a frame that decodes as a `Register` envelope is a
no-op: the state is returned unchanged with signal `false`. -/
theorem claim_C5_register_inbound_noop (st : ChatState) (s : String)
    (msg : WebSocketMessage) (hdec : decodeWS s = some msg)
    (hty : msg.message_type = MsgTypes.Register) :
    handleMsg st s = Except.ok (st, false) := by
  rcases msg with ⟨mt, da, d⟩
  have hty' : mt = MsgTypes.Register := hty
  subst hty'
  simp [handleMsg, hdec]

/-- C5 witness: the concrete inbound `Register` frame. -/
theorem claim_C5_register_inbound_noop_witness :
    decodeWS registerFrame = some ⟨MsgTypes.Register, none, some "bob"⟩ ∧
    handleMsg initialState registerFrame = Except.ok (initialState, false) :=
  ⟨by decide,
   claim_C5_register_inbound_noop initialState registerFrame
     ⟨MsgTypes.Register, none, some "bob"⟩ (by decide) rfl⟩

/-- C6: decoding the text produced by encoding any well-typed
`WebSocketMessage` envelope yields the same envelope back. -/
theorem claim_C6_envelope_roundtrip (m : WebSocketMessage) :
    decodeWS (encodeWS m) = some m := by
  obtain ⟨f, hf⟩ : ∃ f, 2 * (encodeWSChars m).length + 2 = daLen m.data_array + f + 8 := by
    have h := encode_len_lb m
    exact ⟨2 * (encodeWSChars m).length + 2 - (daLen m.data_array + 8), by omega⟩
  rw [decodeWS, parseJsonStr]
  rw [show (encodeWS m).data = encodeWSChars m from rfl]
  rw [hf]
  rw [parseVal_encodeWS m f]
  simp [skipWs, decodeWSJson_wsJson]

/-- C7: `buildRegister u` is the envelope `Register / data = u /
dataArray absent`, and its encoded wire text is exactly the lowercase
`register` tag and camelCase field names around the escaped payload. -/
theorem claim_C7_buildRegister_wire_form (u : String) :
    buildRegister u = ⟨MsgTypes.Register, none, some u⟩ ∧
    encodeWS (buildRegister u) =
      "\x7b\"messageType\":\"register\",\"dataArray\":null,\"data\":" ++
        String.mk (renderStrLit u) ++ "\x7d" := by
  refine ⟨rfl, ?_⟩
  have hdata : (encodeWS (buildRegister u)).data =
      ("\x7b\"messageType\":\"register\",\"dataArray\":null,\"data\":" ++
        String.mk (renderStrLit u) ++ "\x7d").data := by
    rw [show (encodeWS (buildRegister u)).data = encodeWSChars (buildRegister u) from rfl]
    rw [String.data_append, String.data_append]
    rw [show ("\x7b\"messageType\":\"register\",\"dataArray\":null,\"data\":").data =
      '\x7b' :: (renderStrLit "messageType" ++ (':' :: (renderStrLit "register" ++ (',' ::
        (renderStrLit "dataArray" ++ (':' :: (['n', 'u', 'l', 'l'] ++ (',' ::
          (renderStrLit "data" ++ [':'])))))))))
      from by decide]
    rw [show (String.mk (renderStrLit u)).data = renderStrLit u from rfl]
    rw [show ("\x7d" : String).data = ['\x7d'] from by decide]
    simp [encodeWSChars, buildRegister, msgTypeTag, renderOptArr, renderOptStr]
  exact String.ext hdata

/-- C8: for every delivery sequence of well-formed `Users` envelopes
interleaved with `Message` envelopes carrying valid payloads, reducing
from any prior state appends exactly the `Message` payloads to the log
in delivery order; the `Users` envelopes leave the log's length and
order untouched and the log is append-only. -/
theorem claim_C8_log_is_message_payloads_in_order (frames : List String)
    (st : ChatState) (h : frames.all goodFrame = true) :
    ∃ roster, processFrames st frames =
      Except.ok ⟨roster, st.messages ++ msgPayloads frames⟩ := by
  induction frames generalizing st with
  | nil => exact ⟨st.users, by simp [processFrames, msgPayloads]⟩
  | cons s rest ih =>
    rw [List.all_cons, Bool.and_eq_true] at h
    obtain ⟨hs, hrest⟩ := h
    cases hdec : decodeWS s with
    | none => simp [goodFrame, hdec] at hs
    | some msg =>
      rcases msg with ⟨mt, da, d⟩
      cases mt with
      | Users =>
        obtain ⟨r, hr⟩ := ih ({ st with users := (da.getD []).map profileOf }) hrest
        refine ⟨r, ?_⟩
        rw [processFrames]
        simp only [handleMsg, hdec]
        rw [hr]
        simp [msgPayloads, framePayload, hdec]
      | Register => simp [goodFrame, hdec] at hs
      | Message =>
        cases d with
        | none => simp [goodFrame, hdec] at hs
        | some dstr =>
          cases hmd : decodeMD dstr with
          | none => simp [goodFrame, hdec, hmd] at hs
          | some md =>
            obtain ⟨r, hr⟩ :=
              ih ({ st with messages := st.messages ++ [md] }) hrest
            refine ⟨r, ?_⟩
            rw [processFrames]
            simp only [handleMsg, hdec, hmd]
            rw [hr]
            simp [msgPayloads, framePayload, hdec, hmd]

/-- C8 witness: a `Message` frame interleaved between two `Users`
frames yields exactly that message's payload as the log. -/
theorem claim_C8_log_is_message_payloads_in_order_witness :
    ([usersFrame, messageFrame, usersFrame].all goodFrame = true) ∧
    ∃ roster, processFrames initialState [usersFrame, messageFrame, usersFrame] =
      Except.ok ⟨roster,
        initialState.messages ++ msgPayloads [usersFrame, messageFrame, usersFrame]⟩ :=
  ⟨by decide,
   claim_C8_log_is_message_payloads_in_order [usersFrame, messageFrame, usersFrame]
     initialState (by decide)⟩

/-- C9: the `SubmitMessage` action never touches the roster or the log,
never signals a re-render, hands the encoded `Message` envelope to the
transport, and clears the input field whether or not the send
succeeded. -/
theorem claim_C9_submit_clears_input_no_mutation (st : ChatState) (v : String)
    (sendOk : Bool) :
    (submitMessage st (some v) sendOk).state = st ∧
    (submitMessage st (some v) sendOk).rerender = false ∧
    (submitMessage st (some v) sendOk).sent = some (encodeWS (buildMessage v)) ∧
    (submitMessage st (some v) sendOk).inputAfter = some "" := by
  simp [submitMessage]

/-- C10: reducing a frame that decodes as a `Message` envelope with a
valid payload appends that payload to the log and leaves the roster
exactly as it was. -/
theorem claim_C10_message_preserves_roster (st : ChatState) (s : String)
    (msg : WebSocketMessage) (dstr : String) (md : MessageData)
    (hdec : decodeWS s = some msg) (hty : msg.message_type = MsgTypes.Message)
    (hd : msg.data = some dstr) (hmd : decodeMD dstr = some md) :
    handleMsg st s =
      Except.ok ({ st with users := st.users, messages := st.messages ++ [md] }, true) := by
  rcases msg with ⟨mt, da, d⟩
  have hty' : mt = MsgTypes.Message := hty
  subst hty'
  have hd' : d = some dstr := hd
  subst hd'
  simp [handleMsg, hdec, hmd]

/-- C10 witness: the concrete `Message` frame from alice appends its
payload and leaves the (empty) roster unchanged. -/
theorem claim_C10_message_preserves_roster_witness :
    decodeWS messageFrame = some ⟨MsgTypes.Message, none, some innerPayload⟩ ∧
    decodeMD innerPayload = some ⟨"alice", "hi"⟩ ∧
    handleMsg initialState messageFrame =
      Except.ok
        ({ initialState with
            users := initialState.users,
            messages := initialState.messages ++ [⟨"alice", "hi"⟩] }, true) :=
  ⟨by decide, by decide,
   claim_C10_message_preserves_roster initialState messageFrame
     ⟨MsgTypes.Message, none, some innerPayload⟩ innerPayload ⟨"alice", "hi"⟩
     (by decide) rfl rfl (by decide)⟩

end YewChat
